import Mathlib

/-!
Verification of the `NGN.DATA.ConnectionPool` class of `ngn-data`
(`src/connectionpool.js`), a reference-counting registry of live
connection handles.

The embedding is a direct shallow translation of the JavaScript class:

* JavaScript plain objects used as dictionaries (`this.clients`, the
  intended `this.connectionpool` store, the getter properties that `add`
  installs on `this`) become association lists `List (String × _)` whose
  update discipline mirrors JS property assignment (update in place,
  append when fresh).
* JavaScript numbers reachable in the client-usage counters are either
  integers or `NaN` (the decrement `this.clients[key][name]--` of an
  absent property stores `NaN`), so counts are modelled by `JSNum`.
* `this.connectionpool` is read by `add`, `remove` and the `connections`
  getter but is never assigned anywhere in the repository: the
  constructor only defines `clients` and `destroyOnDrain`.  It is
  modelled as `Option (List (String × Handle))`, `none` standing for the
  JavaScript value `undefined`; `undefined.hasOwnProperty(key)` throws a
  `TypeError`.
* Thrown exceptions are modelled by returning `Pool × Option JSErr`: the
  returned pool carries all mutations (including emitted events) that
  happened before the throw point.  `unregisterClient` wraps its whole
  body in `try … catch (e) {}`, so it is a total `Pool → Pool`.
* Event emission appends to an event log `Pool.log`.  The only listener
  installed in the source is the `connection.drained` handler of the pool itself
  (constructor, lines 79–83), which calls `remove(id)` when
  `destroyOnDrain` is set; it is inlined at the single place a
  `connection.drained` event is emitted.  The advisory warning that
  `remove` sends over `NGN.BUS` is recorded in the same log.
* `add` installs the connection as a getter property on `this`
  (`Object.defineProperty(this, key, { get … })`, lines 136–141); the
  descriptor omits `configurable`, so the property is non-configurable.
  These properties are the `ownProps` field.  Reading such a property
  emits `connection.used`; redefining it throws a `TypeError`, and (the
  file is in strict mode) `delete this[key]` on it throws a `TypeError`.
* `NGN.coalesce(a, b)` returns `a` unless it is `null`/`undefined`;
  `NGN.DATA.util.GUID()` is modelled by a fresh-name counter.
-/

/-- A JavaScript number as it occurs in the client-usage counters:
either an integer or `NaN`. -/
inductive JSNum where
  | num (n : Int)
  | nan
  deriving DecidableEq, Repr

/-- The postfix `++` of `registerClient` (line 202): `NaN + 1 = NaN`. -/
def JSNum.inc : JSNum → JSNum
  | .num n => .num (n + 1)
  | .nan => .nan

/-- The postfix `--` of `unregisterClient` (line 219) applied to a
property value that may be absent: `undefined - 1 = NaN`, `NaN - 1 = NaN`. -/
def JSNum.dec : Option JSNum → JSNum
  | some (.num n) => .num (n - 1)
  | some .nan => .nan
  | none => .nan

/-- JavaScript addition on counter values: any `NaN` operand poisons the
sum. -/
def JSNum.jsAdd : JSNum → JSNum → JSNum
  | .num a, .num b => .num (a + b)
  | _, _ => .nan

/-- The JavaScript comparison `v >= 1` on a counter value: false for
`NaN`. -/
def JSNum.ge1 : JSNum → Bool
  | .num n => 1 ≤ n
  | .nan => false

/-- An opaque connection handle.  `id` gives it reference identity (the
`===` test of `add`, line 126); `isObj` and `hasOwnOn` record the two
facts `add` line 144 tests: `typeof value` being `object` and
`value.hasOwnProperty` holding for the property name `on`. -/
structure Handle where
  id : Nat
  isObj : Bool := true
  hasOwnOn : Bool := false
  deriving DecidableEq, Repr

/-- Exceptions that can escape an operation: the built-in `TypeError`
and the `DatabaseConnectionError` created in the constructor
(lines 73–77), thrown by `add` line 129. -/
inductive JSErr where
  | typeError
  | databaseConnectionError
  deriving DecidableEq, Repr

/-- Observable notifications, in emission order.  `created`, `deleted`,
`drained`, `used` and `clientDisconnected` are events of the pool itself;
`advisory` records the `NGN.ADVISORY.WARN` message `remove` sends over
the global bus (line 168). -/
inductive Ev where
  | created (id : String) (conn : Handle)
  | deleted (id : String) (conn : Option Handle)
  | drained (id : String)
  | used (id : String)
  | clientDisconnected (connId : String) (name : String) (conn : Option Handle)
  | advisory (msg : String)
  deriving DecidableEq, Repr

/-- Association-list lookup, modelling a JS property read. -/
def lookupA {α : Type} : List (String × α) → String → Option α
  | [], _ => none
  | (k, v) :: t, key => if k = key then some v else lookupA t key

/-- Association-list update, modelling a JS property write: an existing
key is updated in place, a fresh key is appended (JS enumeration
order). -/
def insertA {α : Type} : List (String × α) → String → α → List (String × α)
  | [], key, v => [(key, v)]
  | (k, w) :: t, key, v =>
      if k = key then (k, v) :: t else (k, w) :: insertA t key v

/-- Association-list deletion, modelling the JS `delete` operator on a
configurable property. -/
def eraseA {α : Type} : List (String × α) → String → List (String × α)
  | [], _ => []
  | (k, w) :: t, key => if k = key then t else (k, w) :: eraseA t key

/-- The generated client name standing in for `NGN.DATA.util.GUID()`
(line 200). -/
def guid (n : Nat) : String := "guid-" ++ toString n

/-- The state of a `ConnectionPool` instance together with the log of
events it has emitted.

* `connectionpool` — the value of `this.connectionpool` (`none` =
  `undefined`; it is never assigned in the repository, so every
  reachable pool has `none` here).
* `ownProps` — the non-configurable getter properties `add` installs
  directly on `this` (lines 136–141).
* `clients` — `this.clients`, the nested usage-count map.
* `destroyOnDrain` — the `deleteOnEmpty` flag (default `true`).
* `subs` — the `(key, handle)` pairs for which `add` subscribed to the
  `disconnect` event of the handle (lines 143–148).
* `guidCtr` — fresh-name supply for `GUID()`.
* `log` — events emitted so far, oldest first. -/
structure Pool where
  connectionpool : Option (List (String × Handle))
  ownProps : List (String × Handle)
  clients : List (String × List (String × JSNum))
  destroyOnDrain : Bool
  subs : List (String × Handle)
  guidCtr : Nat
  log : List Ev
  deriving DecidableEq, Repr

/-- The pool as the constructor (lines 65–84) leaves it:
`this.connectionpool` undefined, `clients` empty, `destroyOnDrain`
true. -/
def poolInit : Pool :=
  { connectionpool := none
    ownProps := []
    clients := []
    destroyOnDrain := true
    subs := []
    guidCtr := 0
    log := [] }

/-- Emit an event: append it to the log.  Used for events that have no
listener installed in the source. -/
def Pool.emitEv (p : Pool) (e : Ev) : Pool :=
  { p with log := p.log ++ [e] }

/-- Read the property `this[key]`: if `add` installed a getter under
`key`, the read emits `connection.used` and yields the handle
(lines 137–140); otherwise it yields `undefined`. -/
def Pool.readProp (p : Pool) (key : String) : Pool × Option Handle :=
  match lookupA p.ownProps key with
  | some h => (p.emitEv (.used key), some h)
  | none => (p, none)

/-- The tail of `add` after the conflict analysis (lines 135–156):
install the getter property, subscribe to `disconnect` when the handle
is an object with an own `on` property, and emit `connection.created`
unless the call is an overwrite.

`Object.defineProperty(this, key, …)` throws a `TypeError` when `this`
already has a non-configurable property `key` (every property `add`
installs is non-configurable, since the descriptor omits
`configurable`). -/
def Pool.addStore (p : Pool) (key : String) (value : Handle)
    (triggerEvent : Bool) : Pool × Option JSErr :=
  if (lookupA p.ownProps key).isSome then
    (p, some .typeError)
  else
    let p1 : Pool := { p with ownProps := p.ownProps ++ [(key, value)] }
    let p2 : Pool :=
      if value.isObj && value.hasOwnOn then
        { p1 with subs := p1.subs ++ [(key, value)] }
      else p1
    if triggerEvent then
      (p2.emitEv (.created key value), none)
    else
      (p2, none)

/-- The method `ConnectionPool.add(key, value, overwrite = false)` (lines 122–157).

Line 125 reads `this.connectionpool.hasOwnProperty(key)`: when
`this.connectionpool` is `undefined` this throws a `TypeError` before
any state change.  Otherwise: same handle already stored → silent
return; different handle without `overwrite` → throw
`DatabaseConnectionError`; different handle with `overwrite` → proceed
without the `connection.created` event. -/
def Pool.add (p : Pool) (key : String) (value : Handle)
    (overwrite : Bool) : Pool × Option JSErr :=
  match p.connectionpool with
  | none => (p, some .typeError)
  | some cp =>
    match lookupA cp key with
    | some stored =>
        if value = stored then
          (p, none)
        else if !overwrite then
          (p, some .databaseConnectionError)
        else
          p.addStore key value false
    | none => p.addStore key value true

/-- The method `ConnectionPool.remove(key)` (lines 166–184).

Line 167 reads `this.connectionpool.hasOwnProperty(key)`: a `TypeError`
when `this.connectionpool` is `undefined`.  With a defined store: an
absent key yields the advisory warning; a present key builds the
`old` payload by reading `this[key]` (a `connection.used` emission when
the getter exists), then `delete this[key]` — which, in strict mode,
throws a `TypeError` whenever the getter property exists, because it is
non-configurable — then drops the `clients` entry and emits
`connection.deleted`. -/
def Pool.remove (p : Pool) (key : String) : Pool × Option JSErr :=
  match p.connectionpool with
  | none => (p, some .typeError)
  | some cp =>
    match lookupA cp key with
    | none =>
        (p.emitEv (.advisory ("NGN.DATA.ConnectionPool cannot remove "
          ++ key ++ " because it cannot be found.")), none)
    | some _ =>
        let rd := p.readProp key
        match rd.2 with
        | some _ => (rd.1, some .typeError)
        | none =>
          let p2 : Pool := { rd.1 with clients := eraseA rd.1.clients key }
          (p2.emitEv (.deleted key rd.2), none)

/-- The body of `registerClient` once the name is resolved (lines
198–204): ensure `clients[key]` exists, coalesce the count to `0` when
absent — a stored `NaN` is kept, since `NaN` is neither `null` nor
`undefined` — and increment.  `ctr` is the fresh-name counter after
resolution. -/
def Pool.registerClientCore (p : Pool) (key id : String)
    (ctr : Nat) : Pool × String :=
  let m := (lookupA p.clients key).getD []
  let c0 := (lookupA m id).getD (.num 0)
  let m1 := insertA m id c0.inc
  ({ p with clients := insertA p.clients key m1, guidCtr := ctr }, id)

/-- The method `ConnectionPool.registerClient(key, name = null)` (lines 197–205):
resolve the name — `NGN.coalesce(name, NGN.DATA.util.GUID())`, a
generated GUID when `null` — then run the counting body.  Returns the
resolved name. -/
def Pool.registerClient (p : Pool) (key : String)
    (name : Option String) : Pool × String :=
  match name with
  | some n => p.registerClientCore key n p.guidCtr
  | none => p.registerClientCore key (guid p.guidCtr) (p.guidCtr + 1)

/-- The method `ConnectionPool.unregisterClient(key, name)` (lines 217–234).  The
whole body sits in `try … catch (e) {}`, so no exception escapes; state
changes made before a throw are kept.

`this.clients[key][name]--` throws a `TypeError` when `clients[key]` is
absent (no change); when only the name is absent it stores
`undefined - 1 = NaN`.  A count that reaches exactly `0` is deleted and
`client.disconnected` is emitted (its payload reads `this[key]`).  When
`clients[key]` has no names left, the entry is dropped and
`connection.drained` is emitted; the drained listener the pool installed
(constructor, lines 79–83) then calls `remove(key)` when
`destroyOnDrain` is set, and any exception `remove` throws propagates
into the `catch` and is swallowed. -/
def Pool.unregisterClient (p : Pool) (key : String) (name : String) : Pool :=
  match lookupA p.clients key with
  | none => p
  | some m =>
    let c1 := JSNum.dec (lookupA m name)
    let m1 := insertA m name c1
    let st :=
      if c1 = .num 0 then
        let m2 := eraseA m1 name
        let pA : Pool := { p with clients := insertA p.clients key m2 }
        let rd := pA.readProp key
        ((rd.1.emitEv (.clientDisconnected key name rd.2)), m2)
      else
        ({ p with clients := insertA p.clients key m1 }, m1)
    if st.2.isEmpty then
      let p2 : Pool := { st.1 with clients := eraseA st.1.clients key }
      let p3 := p2.emitEv (.drained key)
      if p3.destroyOnDrain then (p3.remove key).1 else p3
    else
      st.1

/-- The per-key summation of `ConnectionPool.activeConnections(id = null)` (lines 244–264): the
sum (JS addition, so `NaN`-poisoning) of the usage counts under one key,
`0` for an unknown key. -/
def sumCounts : List (String × JSNum) → JSNum
  | [] => .num 0
  | (_, c) :: t => c.jsAdd (sumCounts t)

/-- One call against the pool, for reachability statements.  A thrown
exception aborts that one call (the state the operation reached is
kept); the sequence continues. -/
inductive Op where
  | add (key : String) (h : Handle) (overwrite : Bool)
  | remove (key : String)
  | register (key : String) (name : Option String)
  | unregister (key : String) (name : String)
  deriving DecidableEq, Repr

/-- Execute one call, keeping the state part. -/
def stepOp (p : Pool) : Op → Pool
  | .add k h ow => (p.add k h ow).1
  | .remove k => (p.remove k).1
  | .register k n => (p.registerClient k n).1
  | .unregister k n => p.unregisterClient k n

/-- Execute a sequence of calls from a given pool. -/
def runOps (p : Pool) (ops : List Op) : Pool :=
  ops.foldl stepOp p

/-- A call is well formed when an `unregisterClient` only targets a
client name that currently has a stored count under its key (the
scenario the spec documents; the source corrupts the map otherwise). -/
def wfOp (p : Pool) : Op → Bool
  | .unregister k n =>
      match lookupA p.clients k with
      | none => true
      | some m => (lookupA m n).isSome
  | _ => true

/-- A call sequence is well formed when each call is well formed in the
state it runs against. -/
def wfOps : Pool → List Op → Bool
  | _, [] => true
  | p, o :: rest => wfOp p o && wfOps (stepOp p o) rest

/-- All stored usage counts of one connection are positive integers. -/
def goodCounts (m : List (String × JSNum)) : Prop :=
  ∀ qr ∈ m, ∃ n : Int, qr.2 = JSNum.num n ∧ 1 ≤ n

/-- Every entry of the usage map is nonempty and all of its counts are
positive integers. -/
def goodUsage (l : List (String × List (String × JSNum))) : Prop :=
  ∀ pr ∈ l, pr.2 ≠ [] ∧ goodCounts pr.2

theorem lookupA_mem {α : Type} : ∀ {l : List (String × α)} {k : String} {v : α},
    lookupA l k = some v → (k, v) ∈ l := by
  intro l
  induction l with
  | nil => intro k v h; simp [lookupA] at h
  | cons hd t ih =>
    intro k v h
    obtain ⟨a, b⟩ := hd
    rw [lookupA] at h
    by_cases hk : a = k
    · rw [if_pos hk] at h
      injection h with h2
      subst hk
      subst h2
      exact List.mem_cons_self _ _
    · rw [if_neg hk] at h
      exact List.mem_cons_of_mem _ (ih h)

theorem lookupA_insertA {α : Type} : ∀ (l : List (String × α)) (k k2 : String) (v : α),
    lookupA (insertA l k v) k2 = if k = k2 then some v else lookupA l k2 := by
  intro l
  induction l with
  | nil => intro k k2 v; simp [insertA, lookupA]
  | cons hd t ih =>
    intro k k2 v
    obtain ⟨a, b⟩ := hd
    simp only [insertA, lookupA]
    by_cases hak : a = k <;> by_cases hk2 : a = k2 <;>
      by_cases hkk2 : k = k2 <;>
      simp_all [lookupA, ih]

theorem mem_insertA {α : Type} : ∀ {l : List (String × α)} {k : String} {v : α}
    {x : String × α}, x ∈ insertA l k v → x ∈ l ∨ x = (k, v) := by
  intro l
  induction l with
  | nil => intro k v x h; simp [insertA] at h; right; exact h
  | cons hd t ih =>
    intro k v x h
    obtain ⟨a, b⟩ := hd
    rw [insertA] at h
    by_cases hak : a = k
    · rw [if_pos hak] at h
      rcases List.mem_cons.mp h with h1 | h1
      · right; rw [h1, hak]
      · left; exact List.mem_cons_of_mem _ h1
    · rw [if_neg hak] at h
      rcases List.mem_cons.mp h with h1 | h1
      · left; rw [h1]; exact List.mem_cons_self _ _
      · rcases ih h1 with h2 | h2
        · left; exact List.mem_cons_of_mem _ h2
        · right; exact h2

theorem insertA_ne_nil {α : Type} : ∀ (l : List (String × α)) (k : String) (v : α),
    insertA l k v ≠ [] := by
  intro l k v
  cases l with
  | nil => simp [insertA]
  | cons hd t =>
    obtain ⟨a, b⟩ := hd
    rw [insertA]
    by_cases hak : a = k
    · rw [if_pos hak]; simp
    · rw [if_neg hak]; simp

theorem isEmpty_insertA {α : Type} (l : List (String × α)) (k : String) (v : α) :
    (insertA l k v).isEmpty = false := by
  cases he : insertA l k v with
  | nil => exact absurd he (insertA_ne_nil l k v)
  | cons hd t => rfl

theorem mem_eraseA {α : Type} : ∀ {l : List (String × α)} {k : String}
    {x : String × α}, x ∈ eraseA l k → x ∈ l := by
  intro l
  induction l with
  | nil => intro k x h; simp [eraseA] at h
  | cons hd t ih =>
    intro k x h
    obtain ⟨a, b⟩ := hd
    rw [eraseA] at h
    by_cases hak : a = k
    · rw [if_pos hak] at h
      exact List.mem_cons_of_mem _ h
    · rw [if_neg hak] at h
      rcases List.mem_cons.mp h with h1 | h1
      · rw [h1]; exact List.mem_cons_self _ _
      · exact List.mem_cons_of_mem _ (ih h1)

theorem eraseA_insertA {α : Type} : ∀ {l : List (String × α)} {k : String} {v w : α},
    lookupA l k = some w → eraseA (insertA l k v) k = eraseA l k := by
  intro l
  induction l with
  | nil => intro k v w h; simp [lookupA] at h
  | cons hd t ih =>
    intro k v w h
    obtain ⟨a, b⟩ := hd
    rw [lookupA] at h
    by_cases hak : a = k
    · rw [insertA, if_pos hak, eraseA, if_pos hak, eraseA, if_pos hak]
    · rw [if_neg hak] at h
      rw [insertA, if_neg hak, eraseA, if_neg hak, eraseA, if_neg hak, ih h]

theorem eraseA_insertA_none {α : Type} : ∀ {l : List (String × α)} {k : String} {v : α},
    lookupA l k = none → eraseA (insertA l k v) k = l := by
  intro l
  induction l with
  | nil => intro k v _; simp [insertA, eraseA]
  | cons hd t ih =>
    intro k v h
    obtain ⟨a, b⟩ := hd
    rw [lookupA] at h
    by_cases hak : a = k
    · rw [if_pos hak] at h; exact absurd h (by simp)
    · rw [if_neg hak] at h
      rw [insertA, if_neg hak, eraseA, if_neg hak, ih h]

theorem insertA_insertA {α : Type} : ∀ (l : List (String × α)) (k : String) (v w : α),
    insertA (insertA l k v) k w = insertA l k w := by
  intro l
  induction l with
  | nil => intro k v w; simp [insertA]
  | cons hd t ih =>
    intro k v w
    obtain ⟨a, b⟩ := hd
    rw [insertA]
    by_cases hak : a = k
    · rw [if_pos hak, insertA, if_pos hak, insertA, if_pos hak]
    · rw [if_neg hak, insertA, if_neg hak, insertA, if_neg hak, ih]

theorem readProp_clients (p : Pool) (k : String) :
    (p.readProp k).1.clients = p.clients := by
  rw [Pool.readProp]
  cases lookupA p.ownProps k <;> rfl

theorem ne_nil_of_isEmpty_false {α : Type} {l : List α}
    (h : l.isEmpty = false) : l ≠ [] := by
  cases l with
  | nil => simp at h
  | cons a t => simp

theorem goodUsage_eraseA {l : List (String × List (String × JSNum))} {k : String}
    (hg : goodUsage l) : goodUsage (eraseA l k) :=
  fun pr hpr => hg pr (mem_eraseA hpr)

theorem goodUsage_insertA {l : List (String × List (String × JSNum))} {k : String}
    {m : List (String × JSNum)} (hg : goodUsage l) (hm : m ≠ [])
    (hc : goodCounts m) : goodUsage (insertA l k m) := by
  intro pr hpr
  rcases mem_insertA hpr with h1 | h1
  · exact hg pr h1
  · rw [h1]; exact ⟨hm, hc⟩

theorem addStore_clients (p : Pool) (k : String) (v : Handle) (t : Bool) :
    (p.addStore k v t).1.clients = p.clients := by
  simp only [Pool.addStore, Pool.emitEv]
  split_ifs <;> rfl

theorem add_clients (p : Pool) (k : String) (h : Handle) (ow : Bool) :
    (p.add k h ow).1.clients = p.clients := by
  cases hc : p.connectionpool with
  | none => simp [Pool.add, hc]
  | some cp =>
    cases hl : lookupA cp k with
    | none => simp [Pool.add, hc, hl, addStore_clients]
    | some stored =>
      by_cases hv : h = stored <;> cases ow <;>
        simp [Pool.add, hc, hl, hv, addStore_clients]

theorem remove_clients (p : Pool) (k : String) :
    (p.remove k).1.clients = p.clients ∨
      (p.remove k).1.clients = eraseA p.clients k := by
  cases hc : p.connectionpool with
  | none => left; simp [Pool.remove, hc]
  | some cp =>
    cases hl : lookupA cp k with
    | none => left; simp [Pool.remove, hc, hl, Pool.emitEv]
    | some h =>
      cases hop : lookupA p.ownProps k with
      | some h2 =>
        left
        simp [Pool.remove, hc, hl, Pool.readProp, hop, Pool.emitEv]
      | none =>
        right
        simp [Pool.remove, hc, hl, Pool.readProp, hop, Pool.emitEv]

theorem goodUsage_remove (p : Pool) (k : String)
    (hg : goodUsage p.clients) : goodUsage (p.remove k).1.clients := by
  rcases remove_clients p k with h | h <;> rw [h]
  · exact hg
  · exact goodUsage_eraseA hg

theorem goodUsage_registerCore (p : Pool) (k id : String) (ctr : Nat)
    (hg : goodUsage p.clients) :
    goodUsage (p.registerClientCore k id ctr).1.clients := by
  have hcl : (p.registerClientCore k id ctr).1.clients
      = insertA p.clients k
          (insertA ((lookupA p.clients k).getD []) id
            (JSNum.inc ((lookupA ((lookupA p.clients k).getD []) id).getD (.num 0)))) := rfl
  rw [hcl]
  apply goodUsage_insertA hg (insertA_ne_nil _ _ _)
  intro qr hqr
  rcases mem_insertA hqr with h1 | h1
  · cases hm : lookupA p.clients k with
    | none => rw [hm] at h1; simp at h1
    | some m0 =>
      rw [hm] at h1
      simp only [Option.getD_some] at h1
      exact (hg (k, m0) (lookupA_mem hm)).2 qr h1
  · rw [h1]
    cases hm : lookupA p.clients k with
    | none =>
      simp only [Option.getD_none]
      exact ⟨1, by simp [lookupA, JSNum.inc], le_refl 1⟩
    | some m0 =>
      simp only [Option.getD_some]
      cases hc0 : lookupA m0 id with
      | none =>
        simp only [Option.getD_none]
        exact ⟨1, by simp [JSNum.inc], le_refl 1⟩
      | some c =>
        simp only [Option.getD_some]
        obtain ⟨n, hn, hn1⟩ := (hg (k, m0) (lookupA_mem hm)).2 (id, c) (lookupA_mem hc0)
        have hn2 : c = JSNum.num n := hn
        rw [hn2]
        exact ⟨n + 1, rfl, by omega⟩

theorem goodUsage_register (p : Pool) (k : String) (n : Option String)
    (hg : goodUsage p.clients) :
    goodUsage (p.registerClient k n).1.clients := by
  cases n with
  | some s => exact goodUsage_registerCore p k s p.guidCtr hg
  | none => exact goodUsage_registerCore p k (guid p.guidCtr) (p.guidCtr + 1) hg

theorem remove_cp_none (p : Pool) (k : String)
    (hcp : p.connectionpool = none) :
    p.remove k = (p, some JSErr.typeError) := by
  simp only [Pool.remove, hcp]

theorem add_cp_none (p : Pool) (k : String) (h : Handle) (ow : Bool)
    (hcp : p.connectionpool = none) :
    p.add k h ow = (p, some JSErr.typeError) := by
  simp only [Pool.add, hcp]

theorem unregister_absent (p : Pool) (k nm : String)
    (hm : lookupA p.clients k = none) :
    p.unregisterClient k nm = p := by
  simp only [Pool.unregisterClient, hm]

theorem unregister_stay (p : Pool) (k nm : String) (m : List (String × JSNum))
    (hm : lookupA p.clients k = some m)
    (hne0 : JSNum.dec (lookupA m nm) ≠ JSNum.num 0) :
    p.unregisterClient k nm
      = { p with clients :=
            insertA p.clients k (insertA m nm (JSNum.dec (lookupA m nm))) } := by
  simp only [Pool.unregisterClient, hm]
  rw [if_neg hne0]
  simp only [isEmpty_insertA]
  simp

theorem unregister_zero_stay (p : Pool) (k nm : String)
    (m : List (String × JSNum)) (c : JSNum)
    (hm : lookupA p.clients k = some m)
    (hc : lookupA m nm = some c)
    (hz : JSNum.dec (some c) = JSNum.num 0)
    (hemp : (eraseA m nm).isEmpty = false) :
    (p.unregisterClient k nm).clients = insertA p.clients k (eraseA m nm)
    ∧ (p.unregisterClient k nm).log
        = p.log ++ (if (lookupA p.ownProps k).isSome then [Ev.used k] else [])
            ++ [Ev.clientDisconnected k nm (lookupA p.ownProps k)]
    ∧ (p.unregisterClient k nm).connectionpool = p.connectionpool := by
  cases hop : lookupA p.ownProps k with
  | some hh =>
    simp only [Pool.unregisterClient, hm, hc, hz, eq_self_iff_true, if_true,
      eraseA_insertA hc, Pool.readProp, Pool.emitEv, hop, hemp]
    simp
  | none =>
    simp only [Pool.unregisterClient, hm, hc, hz, eq_self_iff_true, if_true,
      eraseA_insertA hc, Pool.readProp, Pool.emitEv, hop, hemp]
    simp

theorem unregister_drain (p : Pool) (k nm : String)
    (m : List (String × JSNum)) (c : JSNum)
    (hm : lookupA p.clients k = some m)
    (hc : lookupA m nm = some c)
    (hz : JSNum.dec (some c) = JSNum.num 0)
    (hemp : (eraseA m nm).isEmpty = true)
    (hcp : p.connectionpool = none) :
    (p.unregisterClient k nm).clients = eraseA p.clients k
    ∧ (p.unregisterClient k nm).log
        = p.log ++ (if (lookupA p.ownProps k).isSome then [Ev.used k] else [])
            ++ [Ev.clientDisconnected k nm (lookupA p.ownProps k), Ev.drained k]
    ∧ (p.unregisterClient k nm).connectionpool = none := by
  cases hop : lookupA p.ownProps k with
  | some hh =>
    simp only [Pool.unregisterClient, hm, hc, hz, eq_self_iff_true, if_true,
      eraseA_insertA hc, Pool.readProp, Pool.emitEv, hop, hemp,
      eraseA_insertA hm, Pool.remove, hcp]
    simp
  | none =>
    simp only [Pool.unregisterClient, hm, hc, hz, eq_self_iff_true, if_true,
      eraseA_insertA hc, Pool.readProp, Pool.emitEv, hop, hemp,
      eraseA_insertA hm, Pool.remove, hcp]
    simp

/-- The reachable-state invariant: `this.connectionpool` is still
`undefined` (nothing in the repository ever assigns it) and the usage
map is well formed. -/
def PoolInv (p : Pool) : Prop :=
  p.connectionpool = none ∧ goodUsage p.clients

theorem poolInv_step (p : Pool) (o : Op) (hInv : PoolInv p)
    (hwf : wfOp p o = true) : PoolInv (stepOp p o) := by
  obtain ⟨hcp, hg⟩ := hInv
  cases o with
  | add k h ow =>
    rw [stepOp, add_cp_none p k h ow hcp]
    exact ⟨hcp, hg⟩
  | remove k =>
    rw [stepOp, remove_cp_none p k hcp]
    exact ⟨hcp, hg⟩
  | register k n =>
    refine ⟨?_, goodUsage_register p k n hg⟩
    rw [stepOp]
    cases n <;> exact hcp
  | unregister k nm =>
    rw [stepOp]
    cases hm : lookupA p.clients k with
    | none =>
      rw [unregister_absent p k nm hm]
      exact ⟨hcp, hg⟩
    | some m =>
      obtain ⟨hmne, hgm⟩ := hg (k, m) (lookupA_mem hm)
      simp only [wfOp, hm] at hwf
      obtain ⟨c, hc⟩ := Option.isSome_iff_exists.mp hwf
      obtain ⟨cn, hcn, hcn1⟩ := hgm (nm, c) (lookupA_mem hc)
      have hcn2 : c = JSNum.num cn := hcn
      by_cases h1 : cn = 1
      · have hz : JSNum.dec (some c) = JSNum.num 0 := by
          rw [hcn2, h1]; decide
        cases hemp : (eraseA m nm).isEmpty with
        | true =>
          obtain ⟨hclients, _, hcp2⟩ := unregister_drain p k nm m c hm hc hz hemp hcp
          refine ⟨hcp2, ?_⟩
          rw [hclients]
          exact goodUsage_eraseA hg
        | false =>
          obtain ⟨hclients, _, hcp2⟩ := unregister_zero_stay p k nm m c hm hc hz hemp
          refine ⟨hcp2.trans hcp, ?_⟩
          rw [hclients]
          apply goodUsage_insertA hg (ne_nil_of_isEmpty_false hemp)
          exact fun qr hq => hgm qr (mem_eraseA hq)
      · have hdec : JSNum.dec (lookupA m nm) = JSNum.num (cn - 1) := by
          rw [hc, hcn2]; rfl
        have hne0 : JSNum.dec (lookupA m nm) ≠ JSNum.num 0 := by
          rw [hdec]
          intro hx
          injection hx with hx2
          omega
        rw [unregister_stay p k nm m hm hne0]
        refine ⟨hcp, ?_⟩
        rw [hdec]
        apply goodUsage_insertA hg (insertA_ne_nil _ _ _)
        intro qr hq
        rcases mem_insertA hq with h2 | h2
        · exact hgm qr h2
        · rw [h2]
          exact ⟨cn - 1, rfl, by omega⟩

theorem poolInv_runOps : ∀ (ops : List Op) (p : Pool), PoolInv p →
    wfOps p ops = true → PoolInv (runOps p ops) := by
  intro ops
  induction ops with
  | nil => intro p h _; exact h
  | cons o rest ih =>
    intro p h hwf
    rw [wfOps, Bool.and_eq_true] at hwf
    exact ih (stepOp p o) (poolInv_step p o h hwf.1) hwf.2

theorem poolInv_init : PoolInv poolInit := by
  refine ⟨rfl, ?_⟩
  intro pr hpr
  simp [poolInit] at hpr

theorem sumCounts_goodCounts : ∀ (m : List (String × JSNum)), goodCounts m →
    ∃ s : Int, sumCounts m = JSNum.num s ∧ 0 ≤ s ∧ (m ≠ [] → 1 ≤ s) := by
  intro m
  induction m with
  | nil =>
    intro _
    exact ⟨0, rfl, le_refl 0, fun hx => absurd rfl hx⟩
  | cons hd t ih =>
    intro hg
    obtain ⟨s, hs, hs0, _⟩ := ih (fun qr hq => hg qr (List.mem_cons_of_mem _ hq))
    obtain ⟨n, hn, hn1⟩ := hg hd (List.mem_cons_self _ _)
    obtain ⟨a, b⟩ := hd
    have hn2 : b = JSNum.num n := hn
    refine ⟨n + s, ?_, by omega, fun _ => by omega⟩
    rw [sumCounts, hn2, hs]
    rfl

theorem isEmpty_false_of_ne_nil {α : Type} {l : List α} (h : l ≠ []) :
    l.isEmpty = false := by
  cases l with
  | nil => exact absurd rfl h
  | cons a t => rfl

/-- C1 (counterexample): the invariant fails as stated.  From the empty
pool, `registerClient("k","a")` followed by `unregisterClient("k","b")`
— a name that was never registered — leaves the usage entry
`k ↦ [a ↦ 1, b ↦ NaN]` in the map (line 219 stores `undefined - 1 =
NaN`), and the JavaScript sum of those counts is `NaN`, which is not
`≥ 1`. -/
theorem C1_counterexample :
    ¬ (∀ ops : List Op, ∀ key m,
        lookupA (runOps poolInit ops).clients key = some m →
          m ≠ [] ∧ (sumCounts m).ge1 = true
            ∧ ¬ (∀ qr ∈ m, qr.2 = JSNum.num 0)) := by
  intro h
  have h2 := h [Op.register "k" (some "a"), Op.unregister "k" "b"] "k"
    [("a", JSNum.num 1), ("b", JSNum.nan)] (by decide)
  exact absurd h2.2.1 (by decide)

/-- C1 (amended): for every state reachable from the initial empty pool
by a sequence of `add`, `remove`, `registerClient` and
`unregisterClient` calls in which every `unregisterClient(key, name)`
call targets a name that currently has a stored count under its key
(when the key is present in the usage map at all), every key present in
the client-usage map has at least one client-name under it, the sum of
its client counts is at least 1, and an entry whose counts are all zero
never persists. -/
theorem C1_usage_invariant (ops : List Op)
    (hwf : wfOps poolInit ops = true) :
    ∀ key m, lookupA (runOps poolInit ops).clients key = some m →
      m ≠ [] ∧ (sumCounts m).ge1 = true
        ∧ ¬ (∀ qr ∈ m, qr.2 = JSNum.num 0) := by
  intro key m hm
  obtain ⟨_, hg⟩ := poolInv_runOps ops poolInit poolInv_init hwf
  obtain ⟨hne, hgm⟩ := hg (key, m) (lookupA_mem hm)
  refine ⟨hne, ?_, ?_⟩
  · obtain ⟨s, hs, _, hs1⟩ := sumCounts_goodCounts m hgm
    rw [hs]
    simp only [JSNum.ge1, decide_eq_true_eq]
    exact hs1 hne
  · intro hall
    cases m with
    | nil => exact hne rfl
    | cons q t =>
      obtain ⟨n, hn, hn1⟩ := hgm q (List.mem_cons_self _ _)
      have hq0 := hall q (List.mem_cons_self _ _)
      rw [hq0] at hn
      injection hn with hx
      omega

/-- Witness for C1 (amended): the well-formed one-call sequence
`registerClient("db1","c")` yields the usage entry `db1 ↦ [c ↦ 1]`,
which is nonempty and sums to 1. -/
theorem C1_usage_invariant_witness :
    wfOps poolInit [Op.register "db1" (some "c")] = true
    ∧ ([("c", JSNum.num 1)] : List (String × JSNum)) ≠ []
    ∧ (sumCounts [("c", JSNum.num 1)]).ge1 = true :=
  ⟨by decide,
    (C1_usage_invariant [Op.register "db1" (some "c")] (by decide) "db1"
      [("c", JSNum.num 1)] (by decide)).1,
    (C1_usage_invariant [Op.register "db1" (some "c")] (by decide) "db1"
      [("c", JSNum.num 1)] (by decide)).2.1⟩

/-- C9: calling `unregisterClient(key, name)` with a key that has
registered clients but a name that is not registered under that key
raises no error and emits no event, yet stores the non-number
`undefined - 1 = NaN` as the count for that name, and the corrupted
entry persists in the usage map. -/
theorem C9_unregister_unknown_name (p : Pool) (key name : String)
    (m : List (String × JSNum))
    (hm : lookupA p.clients key = some m) (_hne : m ≠ [])
    (habs : lookupA m name = none) :
    (p.unregisterClient key name).log = p.log
    ∧ lookupA (p.unregisterClient key name).clients key
        = some (insertA m name JSNum.nan)
    ∧ lookupA (insertA m name JSNum.nan) name = some JSNum.nan := by
  have hne0 : JSNum.dec (lookupA m name) ≠ JSNum.num 0 := by
    rw [habs]; decide
  rw [unregister_stay p key name m hm hne0]
  refine ⟨rfl, ?_, ?_⟩
  · show lookupA (insertA p.clients key
        (insertA m name (JSNum.dec (lookupA m name)))) key = _
    rw [lookupA_insertA, if_pos rfl, habs]
    rfl
  · rw [lookupA_insertA, if_pos rfl]

/-- Witness for C9: after `registerClient("k","a")` on the fresh pool,
`unregisterClient("k","b")` emits nothing and stores `NaN` under
`("k","b")`. -/
theorem C9_unregister_unknown_name_witness :
    lookupA (poolInit.registerClient "k" (some "a")).1.clients "k"
        = some [("a", JSNum.num 1)]
    ∧ ((poolInit.registerClient "k" (some "a")).1.unregisterClient "k" "b").log
        = (poolInit.registerClient "k" (some "a")).1.log
    ∧ lookupA ((poolInit.registerClient "k" (some "a")).1.unregisterClient
          "k" "b").clients "k"
        = some (insertA [("a", JSNum.num 1)] "b" JSNum.nan) :=
  ⟨by decide,
    (C9_unregister_unknown_name (poolInit.registerClient "k" (some "a")).1
      "k" "b" [("a", JSNum.num 1)] (by decide) (by decide) (by decide)).1,
    (C9_unregister_unknown_name (poolInit.registerClient "k" (some "a")).1
      "k" "b" [("a", JSNum.num 1)] (by decide) (by decide) (by decide)).2.1⟩

/-- C2: the claimed overwrite behaviour is unreachable.  Because
`this.connectionpool` is never initialized, the very first
`add("db1", h1)` throws a `TypeError` at line 125
(`undefined.hasOwnProperty`) before storing anything, and the
overwriting call `add("db1", h2, true)` throws the same `TypeError`;
no handle is ever readable under the key. -/
theorem C2_overwrite_add_throws :
    poolInit.add "db1" { id := 1 } false = (poolInit, some JSErr.typeError)
    ∧ (poolInit.add "db1" { id := 1 } false).1.add "db1" { id := 2 } true
        = (poolInit, some JSErr.typeError)
    ∧ lookupA ((poolInit.add "db1" { id := 1 } false).1.add "db1"
        { id := 2 } true).1.ownProps "db1" = none := by
  decide

/-- C3: `ConnectionConflict` is never raised.  Both
`add("k", h1)` and the conflicting `add("k", h2, false)` throw a
`TypeError` at line 125 (uninitialized `this.connectionpool`), not the
`DatabaseConnectionError` of line 129, and no handle is ever stored
under the key — the pool does not hold `h1`. -/
theorem C3_conflict_never_raised :
    (poolInit.add "k" { id := 1 } false).2 = some JSErr.typeError
    ∧ (poolInit.add "k" { id := 1 } false).1 = poolInit
    ∧ ((poolInit.add "k" { id := 1 } false).1.add "k" { id := 2 } false).2
        = some JSErr.typeError
    ∧ ((poolInit.add "k" { id := 1 } false).1.add "k" { id := 2 } false).2
        ≠ some JSErr.databaseConnectionError
    ∧ lookupA ((poolInit.add "k" { id := 1 } false).1.add "k"
        { id := 2 } false).1.ownProps "k" = none := by
  decide

/-- C4: re-adding the same handle is not an error-free no-op.  Both the
first and the second `add("k", h)` with the same handle throw a
`TypeError` at line 125 (uninitialized `this.connectionpool`); the
same-reference short-circuit of line 126 is never reached. -/
theorem C4_readd_throws :
    (poolInit.add "k" { id := 1 } false).2 = some JSErr.typeError
    ∧ ((poolInit.add "k" { id := 1 } false).1.add "k" { id := 1 } false).2
        = some JSErr.typeError
    ∧ ((poolInit.add "k" { id := 1 } false).1.add "k" { id := 1 } false).1
        = poolInit := by
  decide

/-- C6: draining the last client fires `connection.drained` and the
drained listener installed by the constructor does call `remove(key)`
(with `destroyOnDrain` defaulting to true), but `remove` throws a
`TypeError` at line 167 (uninitialized `this.connectionpool`), which the
`try`/`catch` of `unregisterClient` swallows: no `connection.deleted`
event appears in the log, and `remove` on the resulting pool throws the
same `TypeError`. -/
theorem C6_drain_does_not_delete :
    poolInit.destroyOnDrain = true
    ∧ (runOps poolInit [Op.register "db1" (some "c"),
          Op.unregister "db1" "c"]).log
        = [Ev.clientDisconnected "db1" "c" none, Ev.drained "db1"]
    ∧ ((runOps poolInit [Op.register "db1" (some "c"),
          Op.unregister "db1" "c"]).remove "db1").2 = some JSErr.typeError := by
  decide

/-- C7: no disconnect subscription is ever made.  Adding a handle that
is an object exposing an own `on` property throws a `TypeError` at line
125 (uninitialized `this.connectionpool`) before the subscription code
of lines 143–148 runs: the pool subscribes to nothing and stores
nothing. -/
theorem C7_no_disconnect_subscription :
    (poolInit.add "k" { id := 5, isObj := true, hasOwnOn := true } false).2
        = some JSErr.typeError
    ∧ (poolInit.add "k" { id := 5, isObj := true, hasOwnOn := true } false).1.subs
        = []
    ∧ (poolInit.add "k" { id := 5, isObj := true, hasOwnOn := true } false).1.ownProps
        = [] := by
  decide

/-- C8: `remove("nonexistent")` does throw.  Line 167 reads
`this.connectionpool.hasOwnProperty`, and `this.connectionpool` is
`undefined`, so the call throws a `TypeError` instead of reaching the
advisory-warning branch; no advisory is emitted (the state, log
included, is unchanged). -/
theorem C8_remove_unknown_throws :
    (poolInit.remove "nonexistent").2 = some JSErr.typeError
    ∧ (poolInit.remove "nonexistent").1 = poolInit := by
  decide

/-- C10: a successful `remove` never happens, so nothing can be emitted
by one.  On every reachable pool no key is ever present (the first
conjunct: `add` itself throws), and even on the hypothetical state `add`
was meant to build — `connectionpool` holding the key and the getter
property installed — `remove(k)` first reads `this[k]` through the
getter, emitting `connection.used`, and then throws a `TypeError` at
`delete this[k]` (strict mode, non-configurable property), so
`connection.deleted` is never emitted after the `connection.used`. -/
theorem C10_remove_used_then_throws :
    (poolInit.add "k" { id := 1 } false).2 = some JSErr.typeError
    ∧ (({ poolInit with
          connectionpool := some [("k", Handle.mk 1 true false)],
          ownProps := [("k", Handle.mk 1 true false)] } : Pool).remove "k").1.log
        = [Ev.used "k"]
    ∧ (({ poolInit with
          connectionpool := some [("k", Handle.mk 1 true false)],
          ownProps := [("k", Handle.mk 1 true false)] } : Pool).remove "k").2
        = some JSErr.typeError := by
  decide

/-- C5: for a key under which client `c` has no stored count (and whose
usage entry, if present, is nonempty), `registerClient(key, c)` returns
`c` and, followed by `unregisterClient(key, c)`, returns the usage count
for `(key, c)` to absent; if `c` was the only client registered under
`key` (the usage entry was absent), the `key` entry is removed from the
usage map and exactly one `connection.drained` notification fires.  The
hypothesis `connectionpool = undefined` holds on every reachable pool
(see `PoolInv`). -/
theorem C5_register_unregister_round_trip (p : Pool) (key c : String)
    (hcp : p.connectionpool = none)
    (hnil : ∀ m, lookupA p.clients key = some m → m ≠ [])
    (habs : ∀ m, lookupA p.clients key = some m → lookupA m c = none) :
    (p.registerClient key (some c)).2 = c
    ∧ (∀ m2, lookupA ((p.registerClient key (some c)).1.unregisterClient
          key c).clients key = some m2 → lookupA m2 c = none)
    ∧ (lookupA p.clients key = none →
        lookupA ((p.registerClient key (some c)).1.unregisterClient
            key c).clients key = none
        ∧ ((p.registerClient key (some c)).1.unregisterClient
              key c).log.count (Ev.drained key)
            = p.log.count (Ev.drained key) + 1) := by
  have hp1cp : (p.registerClient key (some c)).1.connectionpool = none := hcp
  have hp1op : (p.registerClient key (some c)).1.ownProps = p.ownProps := rfl
  have hp1log : (p.registerClient key (some c)).1.log = p.log := rfl
  have hp1c : (p.registerClient key (some c)).1.clients
      = insertA p.clients key
          (insertA ((lookupA p.clients key).getD []) c
            (JSNum.inc ((lookupA ((lookupA p.clients key).getD []) c).getD
              (JSNum.num 0)))) := rfl
  cases hm : lookupA p.clients key with
  | none =>
    have hp1c2 : (p.registerClient key (some c)).1.clients
        = insertA p.clients key [(c, JSNum.num 1)] := by
      rw [hp1c, hm]
      rfl
    have hm1 : lookupA (p.registerClient key (some c)).1.clients key
        = some [(c, JSNum.num 1)] := by
      rw [hp1c2, lookupA_insertA, if_pos rfl]
    have hc1 : lookupA [(c, JSNum.num 1)] c = some (JSNum.num 1) := by
      simp [lookupA]
    have hemp : (eraseA [(c, JSNum.num 1)] c).isEmpty = true := by
      simp [eraseA]
    obtain ⟨hcl2, hlog2, _⟩ := unregister_drain
      (p.registerClient key (some c)).1 key c [(c, JSNum.num 1)]
      (JSNum.num 1) hm1 hc1 (by decide) hemp hp1cp
    have hcl3 : ((p.registerClient key (some c)).1.unregisterClient
        key c).clients = p.clients := by
      rw [hcl2, hp1c2, eraseA_insertA_none hm]
    refine ⟨rfl, ?_, ?_⟩
    · intro m2 hx
      rw [hcl3, hm] at hx
      exact Option.noConfusion hx
    · intro _
      refine ⟨by rw [hcl3]; exact hm, ?_⟩
      rw [hlog2, hp1log, hp1op]
      cases hop : (lookupA p.ownProps key).isSome <;>
        simp [List.count_append, List.count_cons]
  | some m0 =>
    have hm0ne : m0 ≠ [] := hnil m0 hm
    have hm0c : lookupA m0 c = none := habs m0 hm
    have hp1c2 : (p.registerClient key (some c)).1.clients
        = insertA p.clients key (insertA m0 c (JSNum.num 1)) := by
      rw [hp1c, hm]
      simp only [Option.getD_some]
      rw [hm0c]
      rfl
    have hm1 : lookupA (p.registerClient key (some c)).1.clients key
        = some (insertA m0 c (JSNum.num 1)) := by
      rw [hp1c2, lookupA_insertA, if_pos rfl]
    have hc1 : lookupA (insertA m0 c (JSNum.num 1)) c = some (JSNum.num 1) := by
      rw [lookupA_insertA, if_pos rfl]
    have hemp : (eraseA (insertA m0 c (JSNum.num 1)) c).isEmpty = false := by
      rw [eraseA_insertA_none hm0c]
      exact isEmpty_false_of_ne_nil hm0ne
    obtain ⟨hcl2, hlog2, _⟩ := unregister_zero_stay
      (p.registerClient key (some c)).1 key c (insertA m0 c (JSNum.num 1))
      (JSNum.num 1) hm1 hc1 (by decide) hemp
    have hcl3 : ((p.registerClient key (some c)).1.unregisterClient
        key c).clients = insertA p.clients key m0 := by
      rw [hcl2, eraseA_insertA_none hm0c, hp1c2, insertA_insertA]
    refine ⟨rfl, ?_, ?_⟩
    · intro m2 hx
      rw [hcl3, lookupA_insertA, if_pos rfl] at hx
      injection hx with hx2
      rw [← hx2]
      exact hm0c
    · intro hx
      exact Option.noConfusion hx

/-- Witness for C5: on the fresh pool, `registerClient("db1","c")` then
`unregisterClient("db1","c")` removes the `db1` usage entry and fires
exactly one `connection.drained`. -/
theorem C5_register_unregister_round_trip_witness :
    (poolInit.registerClient "db1" (some "c")).2 = "c"
    ∧ lookupA ((poolInit.registerClient "db1" (some "c")).1.unregisterClient
          "db1" "c").clients "db1" = none
    ∧ ((poolInit.registerClient "db1" (some "c")).1.unregisterClient
          "db1" "c").log.count (Ev.drained "db1")
        = poolInit.log.count (Ev.drained "db1") + 1 := by
  have h := C5_register_unregister_round_trip poolInit "db1" "c" rfl
    (fun m hx => by simp [poolInit, lookupA] at hx)
    (fun m hx => by simp [poolInit, lookupA] at hx)
  exact ⟨h.1, (h.2.2 rfl).1, (h.2.2 rfl).2⟩
